import Mathlib

/-!
Verification of the Concurrent Enumeration & Probe Engine of the
CyberPunkNetrunner repository (`phantom` package), as described by its
natural-language specification.

The Python modules are shallowly embedded:
* network and filesystem effects (TCP connect, DNS resolution, HTTP GET,
  file reads) are passed in as explicit functions returning `Except`,
  where `Except.error` models a raised exception;
* the non-deterministic completion order of `as_completed` over a
  `ThreadPoolExecutor` is an explicit `order` parameter, constrained in
  theorems to be a permutation of the submitted candidate list;
* Python `dict`s of query parameters are association lists whose keys are
  unique;
* bytes are `List Nat` (each element < 256), Python `str` values are Lean
  `String`s (sequences of Unicode scalar values).
-/

/-! ## Generic helpers: Python-style orderings and small utilities -/

/-- Lexicographic comparison of character lists by code point, the order
Python uses to compare strings.  `lexLe a b` is `a ≤ b`. -/
def lexLe : List Char → List Char → Bool
  | [], _ => true
  | _ :: _, [] => false
  | a :: as, b :: bs =>
    if a.toNat < b.toNat then true
    else if b.toNat < a.toNat then false
    else lexLe as bs

/-- Python string comparison `a <= b` (lexicographic on code points). -/
def pyStrLe (a b : String) : Bool := lexLe a.toList b.toList

/-- Python `sorted` on integers (ascending). -/
def pySortInt (l : List Int) : List Int := List.insertionSort (· ≤ ·) l

/-- Python `sorted` on strings (lexicographic by code point). -/
def pySortStr (l : List String) : List String :=
  List.insertionSort (fun a b => pyStrLe a b = true) l

/-- Python substring test `pat in body`. -/
def strContains (body pat : String) : Bool :=
  (List.range (body.toList.length + 1)).any fun i =>
    pat.toList.isPrefixOf (body.toList.drop i)

/-! ## Embedding of `phantom/modules/recon.py` -/

namespace Recon

/-- `ReconResult` (`recon.py`), restricted to the fields a port scan
populates.  The Python `data` dict is flattened into named fields. -/
structure PortScanData where
  open_ports : List Int
  total_scanned : Nat
  total_open : Nat
deriving DecidableEq, Repr

structure PortReconResult where
  target : String
  scan_type : String
  data : PortScanData
deriving DecidableEq, Repr

/-- `PortScanner.COMMON_PORTS`. -/
def COMMON_PORTS : List Int :=
  [21, 22, 23, 25, 53, 80, 110, 111, 135, 139, 143, 443, 445,
   993, 995, 1723, 3306, 3389, 5900, 8080, 8443, 8888, 9090]

/-- `ports = ports or self.COMMON_PORTS`: `None` and the empty list are
falsy, so both are replaced by the default port list. -/
def effPorts (ports : Option (List Int)) : List Int :=
  match ports with
  | some (p :: ps) => p :: ps
  | _ => COMMON_PORTS

/-- `PortScanner.scan.check_port`.  `connect p` models
`sock.connect_ex((target, port))` under the socket timeout: `Except.ok r`
is the returned error indicator, `Except.error` a raised exception.
Returns `port if result == 0 else None`; an exception yields `None`. -/
def check_port (connect : Int → Except String Int) (port : Int) : Option Int :=
  match connect port with
  | Except.ok r => if r = 0 then some port else none
  | Except.error _ => none

/-- `PortScanner.scan`.  `order` is the order in which `as_completed`
yields the futures (one per effective port); the collected `open_ports`
list is in completion order and then sorted. -/
def portScan (connect : Int → Except String Int) (target : String)
    (ports : Option (List Int)) (order : List Int) : PortReconResult :=
  let openRaw := order.filterMap (check_port connect)
  { target := target
    scan_type := "port_scan"
    data :=
      { open_ports := pySortInt openRaw
        total_scanned := (effPorts ports).length
        total_open := openRaw.length } }

/-- `SubdomainFinder.DEFAULT_WORDLIST`. -/
def DEFAULT_WORDLIST : List String :=
  ["www", "mail", "ftp", "localhost", "webmail", "smtp", "pop",
   "ns1", "ns2", "dns", "dns1", "dns2", "mx", "mx1", "mx2",
   "blog", "dev", "stage", "staging", "test", "testing", "api",
   "cdn", "static", "assets", "img", "images", "js", "css",
   "admin", "administrator", "cpanel", "webadmin", "portal",
   "vpn", "remote", "gateway", "proxy", "secure", "ssl",
   "db", "database", "mysql", "postgres", "redis", "mongo",
   "app", "apps", "mobile", "m", "beta", "alpha", "demo",
   "shop", "store", "cart", "checkout", "pay", "payment",
   "support", "help", "docs", "documentation", "wiki", "forum"]

/-- `wordlist = wordlist or self.DEFAULT_WORDLIST` (empty list is falsy). -/
def effWordlist (wl : Option (List String)) : List String :=
  match wl with
  | some (w :: ws) => w :: ws
  | _ => DEFAULT_WORDLIST

structure SubScanData where
  subdomains : List String
  wordlist_size : Nat
  found_count : Nat
deriving DecidableEq, Repr

structure SubReconResult where
  target : String
  scan_type : String
  data : SubScanData
deriving DecidableEq, Repr

/-- `SubdomainFinder.scan.check_subdomain`.  `resolve h` models
`socket.gethostbyname(h)`; any exception yields `None`. -/
def check_subdomain (resolve : String → Except String String) (target sub : String) :
    Option String :=
  let subdomain := sub ++ "." ++ target
  match resolve subdomain with
  | Except.ok _ => some subdomain
  | Except.error _ => none

/-- `SubdomainFinder.scan`; `order` is the `as_completed` completion order
over the effective wordlist. -/
def subdomainScan (resolve : String → Except String String) (target : String)
    (wl : Option (List String)) (order : List String) : SubReconResult :=
  let found := order.filterMap (check_subdomain resolve target)
  { target := target
    scan_type := "subdomain_enum"
    data :=
      { subdomains := pySortStr found
        wordlist_size := (effWordlist wl).length
        found_count := found.length } }

end Recon

/-! ## Embedding of `phantom/modules/web.py` -/

namespace Web

/-- `Vulnerability` (`web.py`); the wall-clock `timestamp` field is
omitted from the embedding. -/
structure Vulnerability where
  vuln_type : String
  severity : String
  url : String
  parameter : String
  payload : String
  evidence : String
deriving DecidableEq, Repr

/-- `ScanResult` (`web.py`) as populated by the SQLi/XSS scanners: the
`info` dict reduced to its optional `warning` entry. -/
structure VulnScanResult where
  target : String
  scan_type : String
  vulnerabilities : List Vulnerability
  warning : Option String
deriving DecidableEq, Repr

/-- Lookup in a Python dict modelled as an association list. -/
def dictGet (d : List (String × String)) (k : String) : Option String :=
  (d.find? (fun kv => kv.1 == k)).map (·.2)

/-- Update of a Python dict: an existing key keeps its position, a new
key is appended. -/
def dictSet (d : List (String × String)) (k v : String) : List (String × String) :=
  match d with
  | [] => [(k, v)]
  | kv :: rest => if kv.1 == k then (k, v) :: rest else kv :: dictSet rest k v

/-- `SQLiScanner.PAYLOADS`. -/
def SQLI_PAYLOADS : List String :=
  ["\x27 OR \x271\x27=\x271",
   "\x27 OR \x271\x27=\x271\x27 --",
   "\x27 OR \x271\x27=\x271\x27 /*",
   "\" OR \"1\"=\"1",
   "1\x27 OR \x271\x27=\x271",
   "admin\x27--",
   "\x27) OR (\x271\x27=\x271",
   "1 AND 1=1",
   "1 AND 1=2",
   "1\x27 AND \x271\x27=\x271",
   "1\x27 AND \x271\x27=\x272",
   "1 UNION SELECT NULL--",
   "1 UNION SELECT NULL,NULL--",
   "\x27 UNION SELECT NULL--",
   "1; DROP TABLE users--",
   "1\x27; WAITFOR DELAY \x270:0:5\x27--",
   "1\x27 AND SLEEP(5)--"]

/-- `SQLiScanner.ERROR_PATTERNS` (regex source strings). -/
def ERROR_PATTERNS : List String :=
  ["sql syntax", "mysql_fetch", "mysql_num_rows", "mysqli_",
   "pg_query", "pg_exec", "sqlite_", "ORA-\\d{5}", "ODBC", "DB2",
   "Microsoft Access", "SQLite", "PostgreSQL", "Warning:.*mysql",
   "unclosed quotation mark", "quoted string not properly terminated"]

/-- `SQLiScanner._test_payload`.  `reMatch pat body` models
`re.search(pat, body, re.IGNORECASE) is not None`; `respond url params`
models `self.session.get(url, params=params).text`, with `Except.error`
for any raised exception (transport failure, timeout). -/
def testPayload (reMatch : String → String → Bool)
    (respond : String → List (String × String) → Except String String)
    (url param payload : String) (originalParams : List (String × String)) :
    Option Vulnerability :=
  let injected := ((dictGet originalParams param).getD "") ++ payload
  let testParams := dictSet originalParams param injected
  match respond url testParams with
  | Except.error _ => none
  | Except.ok body =>
    match ERROR_PATTERNS.find? (fun pat => reMatch pat body) with
    | some pat =>
      some { vuln_type := "SQL Injection", severity := "HIGH", url := url,
             parameter := param, payload := payload,
             evidence := "Error pattern matched: " ++ pat }
    | none => none

/-- `SQLiScanner.scan`.  `queryParams` is the query-parameter dict
(`parse_qsl` of the URL updated with the caller's `params`); the keys of
a Python dict are pairwise distinct. -/
def sqliScan (reMatch : String → String → Bool)
    (respond : String → List (String × String) → Except String String)
    (url : String) (queryParams : List (String × String)) : VulnScanResult :=
  if queryParams.isEmpty then
    { target := url, scan_type := "sqli", vulnerabilities := [],
      warning := some "No parameters to test" }
  else
    { target := url, scan_type := "sqli",
      vulnerabilities :=
        (queryParams.map Prod.fst).filterMap (fun param =>
          SQLI_PAYLOADS.findSome? (fun payload =>
            testPayload reMatch respond url param payload queryParams))
      warning := none }

/-- `XSSScanner.PAYLOADS`. -/
def XSS_PAYLOADS : List String :=
  ["<script>alert(\x27XSS\x27)</script>",
   "<img src=x onerror=alert(\x27XSS\x27)>",
   "<svg onload=alert(\x27XSS\x27)>",
   "javascript:alert(\x27XSS\x27)",
   "\x27><script>alert(\x27XSS\x27)</script>",
   "\"><script>alert(\x27XSS\x27)</script>",
   "<body onload=alert(\x27XSS\x27)>",
   "<iframe src=\"javascript:alert(\x27XSS\x27)\">",
   "\x27-alert(\x27XSS\x27)-\x27",
   "<img src=\"x\" onerror=\"alert(\x27XSS\x27)\">",
   "<svg/onload=alert(\x27XSS\x27)>",
   "<script>alert(document.domain)</script>"]

/-- `XSSScanner._test_payload`: the payload replaces the parameter value;
a hit iff the literal payload occurs in the response body. -/
def xssTestPayload
    (respond : String → List (String × String) → Except String String)
    (url param payload : String) (originalParams : List (String × String)) :
    Option Vulnerability :=
  let testParams := dictSet originalParams param payload
  match respond url testParams with
  | Except.error _ => none
  | Except.ok body =>
    if strContains body payload then
      some { vuln_type := "Cross-Site Scripting (XSS)", severity := "MEDIUM",
             url := url, parameter := param, payload := payload,
             evidence := "Payload reflected in response" }
    else none

/-- `XSSScanner.scan`. -/
def xssScan (respond : String → List (String × String) → Except String String)
    (url : String) (queryParams : List (String × String)) : VulnScanResult :=
  if queryParams.isEmpty then
    { target := url, scan_type := "xss", vulnerabilities := [],
      warning := some "No parameters to test" }
  else
    { target := url, scan_type := "xss",
      vulnerabilities :=
        (queryParams.map Prod.fst).filterMap (fun param =>
          XSS_PAYLOADS.findSome? (fun payload =>
            xssTestPayload respond url param payload queryParams))
      warning := none }

/-- `DirectoryBuster.COMMON_DIRS`. -/
def COMMON_DIRS : List String :=
  ["admin", "administrator", "wp-admin", "login", "wp-login.php",
   "phpmyadmin", "pma", "mysql", "backend", "dashboard",
   "api", "v1", "v2", "graphql", "rest", "swagger",
   "backup", "backups", "bak", "old", "temp", "tmp",
   "config", "conf", "configuration", "settings",
   "uploads", "upload", "files", "images", "media",
   ".git", ".svn", ".htaccess", ".htpasswd", "robots.txt",
   "sitemap.xml", "crossdomain.xml", "clientaccesspolicy.xml",
   "test", "testing", "dev", "development", "staging",
   "wp-content", "wp-includes", "includes", "lib", "vendor",
   "cgi-bin", "scripts", "assets", "static", "public"]

/-- `DirectoryBuster.COMMON_FILES`. -/
def COMMON_FILES : List String :=
  ["index.php", "index.html", "index.asp", "default.asp",
   "config.php", "config.inc.php", "wp-config.php",
   "web.config", ".env", "env.example", ".env.example",
   "database.yml", "settings.py", "config.json",
   "phpinfo.php", "info.php", "test.php",
   "shell.php", "cmd.php", "c99.php", "r57.php",
   "id_rsa", "id_dsa", ".ssh/id_rsa", "shadow", "passwd"]

/-- `base_url.rstrip('/')`. -/
def pyRstripSlash (s : String) : String :=
  String.mk ((s.toList.reverse.dropWhile (fun c => c == '/')).reverse)

/-- `wordlist = wordlist or self.COMMON_DIRS + self.COMMON_FILES`. -/
def effDirWordlist (wl : Option (List String)) : List String :=
  match wl with
  | some (w :: ws) => w :: ws
  | _ => COMMON_DIRS ++ COMMON_FILES

/-- `DirectoryBuster.scan.check_path`.  `respond url` models the status
code of `self.session.get(url, allow_redirects=False)`, `Except.error`
any raised exception.  `base` is the already-stripped base URL. -/
def check_path (respond : String → Except String Nat) (base path : String) :
    Option (String × Nat) :=
  let url := base ++ "/" ++ path
  match respond url with
  | Except.ok code =>
    if [200, 301, 302, 403].contains code then some (path, code) else none
  | Except.error _ => none

/-- `ScanResult` as populated by `DirectoryBuster.scan`: the `info` dict
flattened into its three entries. -/
structure DirBustResult where
  target : String
  scan_type : String
  found_paths : List (String × Nat)
  total_checked : Nat
  total_found : Nat
deriving DecidableEq, Repr

/-- `DirectoryBuster.scan`; `order` is the `as_completed` completion
order over the effective wordlist.  Note that `found` is stored in
completion order, without sorting. -/
def dirBustScan (respond : String → Except String Nat) (base_url : String)
    (wl : Option (List String)) (order : List String) : DirBustResult :=
  let base := pyRstripSlash base_url
  let found := order.filterMap (check_path respond base)
  { target := base_url, scan_type := "directory_bust",
    found_paths := found,
    total_checked := (effDirWordlist wl).length,
    total_found := found.length }

end Web

/-! ## Embedding of `phantom/modules/crypto.py` -/

namespace Crypto

/-- `HashType` (`crypto.py`). -/
inductive HashType where
  | MD5 | SHA1 | SHA256 | SHA512 | NTLM | BCRYPT
deriving DecidableEq, Repr

/-- The two regex shapes used by `HashIdentifier.PATTERNS`:
`^[a-fA-F0-9]{n}$` and `^\$2[ayb]\$.+`. -/
inductive HashPat where
  | hexOf (n : Nat)
  | bcryptPat
deriving DecidableEq, Repr

/-- Hexadecimal character class `[a-fA-F0-9]`. -/
def isHexCh (c : Char) : Bool :=
  decide (48 ≤ c.toNat ∧ c.toNat ≤ 57) ||
  decide (97 ≤ c.toNat ∧ c.toNat ≤ 102) ||
  decide (65 ≤ c.toNat ∧ c.toNat ≤ 70)

/-- `re.match(pattern, s)` for the two pattern shapes of `PATTERNS`. -/
def patMatch : HashPat → String → Bool
  | HashPat.hexOf n, s => decide (s.length = n) && s.toList.all isHexCh
  | HashPat.bcryptPat, s =>
    match s.toList with
    | '$' :: '2' :: c :: '$' :: rest =>
      (c == 'a' || c == 'y' || c == 'b') && decide (rest ≠ [])
    | _ => false

/-- `HashIdentifier.PATTERNS`, in dict insertion order. -/
def PATTERNS : List (HashType × Nat × HashPat) :=
  [(HashType.MD5, 32, HashPat.hexOf 32),
   (HashType.SHA1, 40, HashPat.hexOf 40),
   (HashType.SHA256, 64, HashPat.hexOf 64),
   (HashType.SHA512, 128, HashPat.hexOf 128),
   (HashType.NTLM, 32, HashPat.hexOf 32),
   (HashType.BCRYPT, 60, HashPat.bcryptPat)]

/-- `HashIdentifier.identify`: every entry whose expected length equals
the input length and whose pattern matches is collected; no
short-circuit. -/
def identify (hash_value : String) : List HashType :=
  PATTERNS.filterMap (fun e =>
    if hash_value.length = e.2.1 then
      (if patMatch e.2.2 hash_value then some e.1 else none)
    else none)

/-- Expected length of each hash type, as recorded in `PATTERNS`. -/
def expectedLen : HashType → Nat
  | HashType.MD5 => 32
  | HashType.SHA1 => 40
  | HashType.SHA256 => 64
  | HashType.SHA512 => 128
  | HashType.NTLM => 32
  | HashType.BCRYPT => 60

/-- Pattern of each hash type, as recorded in `PATTERNS`. -/
def patOf : HashType → HashPat
  | HashType.MD5 => HashPat.hexOf 32
  | HashType.SHA1 => HashPat.hexOf 40
  | HashType.SHA256 => HashPat.hexOf 64
  | HashType.SHA512 => HashPat.hexOf 128
  | HashType.NTLM => HashPat.hexOf 32
  | HashType.BCRYPT => HashPat.bcryptPat

/-- The `hashlib` primitives used by `HashCracker._hash_string`, passed
in abstractly: `md4utf16le p` models
`hashlib.new('md4', p.encode('utf-16le')).hexdigest()`, the others the
respective `hashlib.<alg>(p.encode()).hexdigest()`. -/
structure HashPrims where
  md5 : String → String
  sha1 : String → String
  sha256 : String → String
  sha512 : String → String
  md4utf16le : String → String

/-- `HashCracker._hash_string`: dispatch over the hash type; the final
fall-through (`BCRYPT`) returns the empty string. -/
def hashString (P : HashPrims) : HashType → String → String
  | HashType.MD5, s => P.md5 s
  | HashType.SHA1, s => P.sha1 s
  | HashType.SHA256, s => P.sha256 s
  | HashType.SHA512, s => P.sha512 s
  | HashType.NTLM, s => P.md4utf16le s
  | HashType.BCRYPT, _ => ""

/-- ASCII lowering of one character; models Python `str.lower` on the
ASCII inputs (hash digests, encoding names) handled here. -/
def pyLowerChar (c : Char) : Char :=
  if 65 ≤ c.toNat ∧ c.toNat ≤ 90 then Char.ofNat (c.toNat + 32) else c

/-- `s.lower()`. -/
def pyToLower (s : String) : String := String.mk (s.toList.map pyLowerChar)

/-- ASCII whitespace (Python `str.strip` additionally strips rarer
Unicode whitespace, which the wordlists used here do not contain). -/
def isPySpace (c : Char) : Bool :=
  decide (c.toNat = 32 ∨ c.toNat = 9 ∨ c.toNat = 10 ∨ c.toNat = 13 ∨
    c.toNat = 11 ∨ c.toNat = 12)

/-- `line.strip()`: whitespace removed from both ends. -/
def pyStrip (s : String) : String :=
  String.mk (((s.toList.dropWhile isPySpace).reverse.dropWhile isPySpace).reverse)

/-- `HashCracker.dictionary_attack`.  The wordlist file is passed as
`file`: `Except.error` models a failed `open`/read (the caught exception
path, which prints and returns `None`), `Except.ok lines` the sequence of
lines. -/
def dictionary_attack (P : HashPrims) (hash_value : String) (t : HashType)
    (file : Except String (List String)) : Option String :=
  let hv := pyToLower hash_value
  match file with
  | Except.error _ => none
  | Except.ok lines =>
    lines.findSome? (fun line =>
      let word := pyStrip line
      if hashString P t word = hv then some word else none)

/-- Default charset `string.ascii_lowercase + string.digits`. -/
def asciiLowerDigits : String := "abcdefghijklmnopqrstuvwxyz0123456789"

/-- `charset = charset or string.ascii_lowercase + string.digits` (the
empty string is falsy). -/
def effCharset (charset : Option String) : String :=
  match charset with
  | some s => if s = "" then asciiLowerDigits else s
  | none => asciiLowerDigits

/-- `itertools.product(charset, repeat=length)`, in product order (first
position slowest). -/
def allStrings (charset : List Char) : Nat → List (List Char)
  | 0 => [[]]
  | n + 1 => charset.flatMap (fun c => (allStrings charset n).map (c :: ·))

/-- `HashCracker.brute_force`: lengths `min_len .. max_len`, candidates
in product order; returns the first candidate whose hash equals the
lowercased target. -/
def brute_force (P : HashPrims) (hash_value : String) (t : HashType)
    (charset : Option String) (min_len max_len : Nat) : Option String :=
  let hv := pyToLower hash_value
  let cs := (effCharset charset).toList
  (List.range' min_len (max_len + 1 - min_len)).findSome? (fun len =>
    (allStrings cs len).findSome? (fun tup =>
      let plaintext := String.mk tup
      if hashString P t plaintext = hv then some plaintext else none))

end Crypto

namespace Crypto

/-- UTF-8 encoding of one code point (`str.encode()` per character). -/
def utf8EncodeChar (c : Nat) : List Nat :=
  if c < 0x80 then [c]
  else if c < 0x800 then [0xC0 + c / 64, 0x80 + c % 64]
  else if c < 0x10000 then [0xE0 + c / 4096, 0x80 + c / 64 % 64, 0x80 + c % 64]
  else [0xF0 + c / 262144, 0x80 + c / 4096 % 64, 0x80 + c / 64 % 64, 0x80 + c % 64]

/-- `data.encode()`: UTF-8 bytes of a string. -/
def pyEncodeUtf8 (s : String) : List Nat :=
  s.toList.flatMap (fun c => utf8EncodeChar c.toNat)

/-- One step of strict UTF-8 decoding: given the first byte and the
remaining bytes, the decoded code point and the rest, or `none` on
malformed input (truncated, overlong, or surrogate encodings). -/
def utf8Step (b : Nat) (bs : List Nat) : Option (Nat × List Nat) :=
  if b < 0x80 then some (b, bs)
  else if b < 0xE0 then
    match bs with
    | b1 :: bs' =>
      if 0xC2 ≤ b ∧ b1 / 64 = 2 then
        some ((b - 0xC0) * 64 + (b1 - 0x80), bs')
      else none
    | [] => none
  else if b < 0xF0 then
    match bs with
    | b1 :: b2 :: bs' =>
      let c := (b - 0xE0) * 4096 + (b1 - 0x80) * 64 + (b2 - 0x80)
      if (b1 / 64 = 2 ∧ b2 / 64 = 2) ∧ 0x800 ≤ c ∧
          ¬(0xD800 ≤ c ∧ c ≤ 0xDFFF) then
        some (c, bs')
      else none
    | _ => none
  else if b < 0xF5 then
    match bs with
    | b1 :: b2 :: b3 :: bs' =>
      let c := (b - 0xF0) * 262144 + (b1 - 0x80) * 4096 +
        (b2 - 0x80) * 64 + (b3 - 0x80)
      if (b1 / 64 = 2 ∧ b2 / 64 = 2 ∧ b3 / 64 = 2) ∧ 0x10000 ≤ c ∧
          c < 0x110000 then
        some (c, bs')
      else none
    | _ => none
  else none

/-- Fuel-indexed UTF-8 decoding loop (each step consumes at least one
byte, so fuel equal to the byte count always suffices). -/
def utf8DecodeAux : Nat → List Nat → Option (List Char)
  | _, [] => some []
  | 0, _ :: _ => none
  | fuel + 1, b :: bs =>
    match utf8Step b bs with
    | some (c, rest) => (utf8DecodeAux fuel rest).map (fun cs => Char.ofNat c :: cs)
    | none => none

/-- `bytes.decode()`: strict UTF-8 decoding; malformed input is a decode
error (`none`), modelling the raised `UnicodeDecodeError`. -/
def utf8Decode (l : List Nat) : Option (List Char) :=
  utf8DecodeAux l.length l

/-- ASCII code of the lowercase hex digit for `n < 16` (`bytes.hex()`). -/
def hexDigit (n : Nat) : Nat := if n < 10 then 48 + n else 87 + n

/-- `data.encode().hex()` at byte level: two lowercase hex digits per
byte. -/
def bytesHex (bs : List Nat) : List Nat :=
  bs.flatMap (fun b => [hexDigit (b / 16), hexDigit (b % 16)])

/-- Value of one hex digit character (either case), else `none`. -/
def hexVal (c : Nat) : Option Nat :=
  if 48 ≤ c ∧ c ≤ 57 then some (c - 48)
  else if 97 ≤ c ∧ c ≤ 102 then some (c - 87)
  else if 65 ≤ c ∧ c ≤ 70 then some (c - 55)
  else none

/-- `bytes.fromhex`: pairs of hex digits, spaces between pairs ignored;
anything else raises (`none`). -/
def bytesFromHex : List Nat → Option (List Nat)
  | [] => some []
  | c :: rest =>
    if c = 32 then bytesFromHex rest
    else
      match rest with
      | [] => none
      | c2 :: rest' =>
        match hexVal c, hexVal c2 with
        | some h, some l => (bytesFromHex rest').map (fun bs => (h * 16 + l) :: bs)
        | _, _ => none

/-- ASCII code of the base64 alphabet character for sextet `n < 64`. -/
def b64Char (n : Nat) : Nat :=
  if n < 26 then 65 + n
  else if n < 52 then 71 + n
  else if n < 62 then n - 4
  else if n = 62 then 43
  else 47

/-- Sextet value of a base64 alphabet character, else `none`. -/
def b64Index (c : Nat) : Option Nat :=
  if 65 ≤ c ∧ c ≤ 90 then some (c - 65)
  else if 97 ≤ c ∧ c ≤ 122 then some (c - 71)
  else if 48 ≤ c ∧ c ≤ 57 then some (c + 4)
  else if c = 43 then some 62
  else if c = 47 then some 63
  else none

/-- `base64.b64encode` at byte level: 3-byte groups to 4 characters, with
`=` (61) padding. -/
def b64EncodeBytes : List Nat → List Nat
  | [] => []
  | [b1] => [b64Char (b1 / 4), b64Char (b1 % 4 * 16), 61, 61]
  | [b1, b2] =>
    [b64Char (b1 / 4), b64Char (b1 % 4 * 16 + b2 / 16), b64Char (b2 % 16 * 4), 61]
  | b1 :: b2 :: b3 :: rest =>
    b64Char (b1 / 4) :: b64Char (b1 % 4 * 16 + b2 / 16) ::
    b64Char (b2 % 16 * 4 + b3 / 64) :: b64Char (b3 % 64) :: b64EncodeBytes rest

/-- Decoding of 4-character base64 chunks, padding only in the final
chunk; malformed input is an error (`none`). -/
def b64DecodeChunks : List Nat → Option (List Nat)
  | [] => some []
  | c1 :: c2 :: c3 :: c4 :: rest =>
    match b64Index c1, b64Index c2 with
    | some i1, some i2 =>
      if c3 = 61 then
        if c4 = 61 ∧ rest = [] then some [i1 * 4 + i2 / 16] else none
      else
        match b64Index c3 with
        | some i3 =>
          if c4 = 61 then
            if rest = [] then some [i1 * 4 + i2 / 16, i2 % 16 * 16 + i3 / 4] else none
          else
            match b64Index c4 with
            | some i4 =>
              (b64DecodeChunks rest).map
                (fun bs => (i1 * 4 + i2 / 16) :: (i2 % 16 * 16 + i3 / 4) :: (i3 % 4 * 64 + i4) :: bs)
            | none => none
        | none => none
    | _, _ => none
  | _ => none

/-- `base64.b64decode` at byte level: characters outside the alphabet and
padding are discarded, then the length must be a multiple of 4. -/
def b64DecodeBytes (chars : List Nat) : Option (List Nat) :=
  let filtered := chars.filter (fun c => (b64Index c).isSome || decide (c = 61))
  if filtered.length % 4 = 0 then b64DecodeChunks filtered else none

/-- `Encoder.base64_encode`. -/
def base64_encode (s : String) : String :=
  String.mk ((b64EncodeBytes (pyEncodeUtf8 s)).map Char.ofNat)

/-- `Encoder.base64_decode`: any exception (invalid base64 or invalid
UTF-8) yields the empty string. -/
def base64_decode (s : String) : String :=
  match b64DecodeBytes (s.toList.map Char.toNat) with
  | some bs =>
    match utf8Decode bs with
    | some cs => String.mk cs
    | none => ""
  | none => ""

/-- `Encoder.hex_encode`. -/
def hex_encode (s : String) : String :=
  String.mk ((bytesHex (pyEncodeUtf8 s)).map Char.ofNat)

/-- `Encoder.hex_decode`: any exception yields the empty string. -/
def hex_decode (s : String) : String :=
  match bytesFromHex (s.toList.map Char.toNat) with
  | some bs =>
    match utf8Decode bs with
    | some cs => String.mk cs
    | none => ""
  | none => ""

/-- Python `str.isalpha` for one code point, faithful on code points
below 0x100 (ASCII letters, and the Latin-1 letters `ª µ º À-Ö Ø-ö ø-ÿ`);
the theorems below only evaluate it in that range. -/
def pyIsAlphaL1 (n : Nat) : Bool :=
  decide ((65 ≤ n ∧ n ≤ 90) ∨ (97 ≤ n ∧ n ≤ 122) ∨ n = 0xAA ∨ n = 0xB5 ∨
    n = 0xBA ∨ (0xC0 ≤ n ∧ n ≤ 0xFF ∧ n ≠ 0xD7 ∧ n ≠ 0xF7))

/-- Python `str.isupper` for one code point, faithful on code points
below 0x100. -/
def pyIsUpperL1 (n : Nat) : Bool :=
  decide ((65 ≤ n ∧ n ≤ 90) ∨ (0xC0 ≤ n ∧ n ≤ 0xDE ∧ n ≠ 0xD7))

/-- One character of `Encoder.rot13`: alphabetic characters are shifted
by 13 within `A-Z` (if upper) or `a-z` (otherwise); everything else is
unchanged. -/
def rot13Char (n : Nat) : Nat :=
  if pyIsAlphaL1 n then
    if pyIsUpperL1 n then (n - 65 + 13) % 26 + 65
    else (n - 97 + 13) % 26 + 97
  else n

/-- `Encoder.rot13`. -/
def rot13 (s : String) : String :=
  String.mk (s.toList.map (fun c => Char.ofNat (rot13Char c.toNat)))

/-- `CryptoAnalyzer.encode`: dispatch on the lowercased encoding name;
unknown names yield the empty string. -/
def encode (data encoding : String) : String :=
  if pyToLower encoding = "base64" then base64_encode data
  else if pyToLower encoding = "hex" then hex_encode data
  else if pyToLower encoding = "rot13" then rot13 data
  else ""

/-- `CryptoAnalyzer.decode`: dispatch on the lowercased encoding name;
note that the `rot13` entry maps to `Encoder.rot13` itself. -/
def decode (data encoding : String) : String :=
  if pyToLower encoding = "base64" then base64_decode data
  else if pyToLower encoding = "hex" then hex_decode data
  else if pyToLower encoding = "rot13" then rot13 data
  else ""

end Crypto

/-! ## Embedding of `phantom/modules/forensics.py` -/

namespace Forensics

/-- `pat` occurs in `data` at offset `i` (fully inside the data). -/
def matchAt (data pat : List Nat) (i : Nat) : Bool :=
  pat.isPrefixOf (data.drop i)

/-- `data.find(pat, start)`: the least offset `≥ start` at which `pat`
occurs, if any. -/
def byteFind (data pat : List Nat) (start : Nat) : Option Nat :=
  (List.range (data.length + 1)).find? (fun i =>
    decide (start ≤ i) && matchAt data pat i)

/-- One signature of `FileCarver.FILE_SIGNATURES` (the output extension
plays no role in carving). -/
structure FileSig where
  header : List Nat
  footer : Option (List Nat)
deriving DecidableEq, Repr

def jpegSig : FileSig := ⟨[0xff, 0xd8, 0xff], some [0xff, 0xd9]⟩
def pngSig : FileSig :=
  ⟨[0x89, 0x50, 0x4e, 0x47, 0x0d, 0x0a, 0x1a, 0x0a],
   some [0x00, 0x00, 0x00, 0x00, 0x49, 0x45, 0x4e, 0x44, 0xae, 0x42, 0x60, 0x82]⟩
def pdfSig : FileSig := ⟨[0x25, 0x50, 0x44, 0x46], some [0x25, 0x25, 0x45, 0x4f, 0x46]⟩
def zipSig : FileSig := ⟨[0x50, 0x4b, 0x03, 0x04], some [0x50, 0x4b, 0x05, 0x06]⟩
def exeSig : FileSig := ⟨[0x4d, 0x5a], none⟩
def elfSig : FileSig := ⟨[0x7f, 0x45, 0x4c, 0x46], none⟩

/-- The hard maximum unit size of `FileCarver.carve`: 10 MB. -/
def MAX_CARVE : Nat := 10 * 1024 * 1024

/-- End offset of the unit starting at `pos`: the end of the nearest
footer occurrence after the header, else `min(pos + 10MB, len(data))`
when no footer is configured or none is found. -/
def unitEnd (data : List Nat) (sig : FileSig) (pos : Nat) : Nat :=
  match sig.footer with
  | some f =>
    match byteFind data f (pos + sig.header.length) with
    | some fp => fp + f.length
    | none => min (pos + MAX_CARVE) data.length
  | none => min (pos + MAX_CARVE) data.length

/-- The `while True` loop of `FileCarver.carve` for one signature:
repeatedly find the next header occurrence from `start`, delimit the
unit, and continue scanning from the unit's end.  `fuel` bounds the
iteration count; `carveUnits` supplies enough fuel for the loop to run to
exhaustion. -/
def carveLoop (data : List Nat) (sig : FileSig) : Nat → Nat → List (Nat × Nat)
  | 0, _ => []
  | fuel + 1, start =>
    match byteFind data sig.header start with
    | none => []
    | some pos =>
      let e := unitEnd data sig pos
      (pos, e) :: carveLoop data sig fuel e

/-- The start/end offsets of the units carved for one signature. -/
def carveUnits (data : List Nat) (sig : FileSig) : List (Nat × Nat) :=
  carveLoop data sig (data.length + 1) 0

/-- The extracted byte strings (`data[pos:end]`) for one signature. -/
def carveBytes (data : List Nat) (sig : FileSig) : List (List Nat) :=
  (carveUnits data sig).map (fun u => (data.drop u.1).take (u.2 - u.1))

end Forensics

/-! ## Supporting lemmas -/

theorem lexLe_total (a b : List Char) : lexLe a b = true ∨ lexLe b a = true := by
  induction a generalizing b with
  | nil => left; rfl
  | cons x xs ih =>
    cases b with
    | nil => right; rfl
    | cons y ys =>
      by_cases h1 : x.toNat < y.toNat
      · left; simp [lexLe, h1]
      · by_cases h2 : y.toNat < x.toNat
        · right; simp [lexLe, h2]
        · rcases ih ys with h | h
          · left; simp [lexLe, h1, h2, h]
          · right; simp [lexLe, h1, h2, h]

theorem lexLe_cons {x y : Char} {xs ys : List Char} :
    lexLe (x :: xs) (y :: ys) = true ↔
      (x.toNat < y.toNat ∨ (x.toNat = y.toNat ∧ lexLe xs ys = true)) := by
  simp only [lexLe]
  split_ifs with h1 h2
  · simp [h1]
  · simp; omega
  · have hxy : x.toNat = y.toNat := by omega
    simp [h1, hxy]

theorem lexLe_trans {a b c : List Char} (h1 : lexLe a b = true)
    (h2 : lexLe b c = true) : lexLe a c = true := by
  induction a generalizing b c with
  | nil => rfl
  | cons x xs ih =>
    cases b with
    | nil => simp [lexLe] at h1
    | cons y ys =>
      cases c with
      | nil => simp [lexLe] at h2
      | cons z zs =>
        rw [lexLe_cons] at h1 h2 ⊢
        rcases h1 with h | ⟨he, hl⟩ <;> rcases h2 with h' | ⟨he', hl'⟩
        · left; omega
        · left; omega
        · left; omega
        · exact Or.inr ⟨by omega, ih hl hl'⟩

theorem pyStrLe_total (a b : String) : pyStrLe a b = true ∨ pyStrLe b a = true :=
  lexLe_total _ _

theorem pyStrLe_trans {a b c : String} (h1 : pyStrLe a b = true)
    (h2 : pyStrLe b c = true) : pyStrLe a c = true :=
  lexLe_trans h1 h2

theorem pySortInt_sorted (l : List Int) : List.Sorted (· ≤ ·) (pySortInt l) :=
  List.sorted_insertionSort _ l

theorem pySortInt_perm (l : List Int) : (pySortInt l).Perm l :=
  List.perm_insertionSort _ l

theorem pySortStr_sorted (l : List String) :
    List.Sorted (fun a b => pyStrLe a b = true) (pySortStr l) := by
  have htot : IsTotal String (fun a b => pyStrLe a b = true) := ⟨pyStrLe_total⟩
  have htr : IsTrans String (fun a b => pyStrLe a b = true) :=
    ⟨fun _ _ _ => pyStrLe_trans⟩
  exact List.sorted_insertionSort _ l

theorem pySortStr_perm (l : List String) : (pySortStr l).Perm l :=
  List.perm_insertionSort _ l

theorem testPayload_param {reMatch : String → String → Bool}
    {respond : String → List (String × String) → Except String String}
    {url param payload : String} {qps : List (String × String)}
    {v : Web.Vulnerability}
    (h : Web.testPayload reMatch respond url param payload qps = some v) :
    v.parameter = param := by
  simp only [Web.testPayload] at h
  split at h
  · exact absurd h (by simp)
  · split at h
    · cases h; rfl
    · exact absurd h (by simp)

theorem xssTestPayload_param
    {respond : String → List (String × String) → Except String String}
    {url param payload : String} {qps : List (String × String)}
    {v : Web.Vulnerability}
    (h : Web.xssTestPayload respond url param payload qps = some v) :
    v.parameter = param := by
  simp only [Web.xssTestPayload] at h
  split at h
  · exact absurd h (by simp)
  · split at h
    · cases h; rfl
    · exact absurd h (by simp)

theorem countP_param_le_one (keys : List String)
    (f : String → Option Web.Vulnerability)
    (hf : ∀ k v, f k = some v → v.parameter = k) (nd : keys.Nodup) (p : String) :
    (keys.filterMap f).countP (fun v => v.parameter == p) ≤ 1 := by
  induction keys with
  | nil => simp
  | cons k ks ih =>
    have ndt := nd.of_cons
    rw [List.filterMap_cons]
    cases hfk : f k with
    | none => exact ih ndt
    | some v =>
      rw [List.countP_cons]
      by_cases hvp : v.parameter == p
      · have hkp : k = p := by
          have hvk := hf k v hfk
          rw [hvk] at hvp
          exact eq_of_beq hvp
        have h0 : (ks.filterMap f).countP (fun v => v.parameter == p) = 0 := by
          rw [List.countP_eq_zero]
          intro w hw
          obtain ⟨k', hk', hfw⟩ := List.mem_filterMap.mp hw
          have hwk := hf k' w hfw
          have hkne : k' ≠ p := by
            intro he
            apply (List.nodup_cons.mp nd).1
            rw [hkp, ← he]
            exact hk'
          simp [hwk, hkne]
        rw [h0, if_pos hvp]
      · rw [if_neg hvp]
        simpa using ih ndt

/-! ## Claim theorems -/

/-- C1: first-hit-per-group aggregation — for every target URL and query
parameter dict (whose keys, as dict keys, are pairwise distinct), the
result of the SQL-injection scan, and likewise the XSS scan, contains at
most one `Vulnerability` whose `parameter` field equals any given
parameter name: the inner payload loop breaks after the first hit of a
parameter. -/
theorem C1_first_hit_per_group
    (reMatch : String → String → Bool)
    (respond respond2 : String → List (String × String) → Except String String)
    (url : String) (qps : List (String × String))
    (hnd : (qps.map Prod.fst).Nodup) (p : String) :
    (Web.sqliScan reMatch respond url qps).vulnerabilities.countP
      (fun v => v.parameter == p) ≤ 1 ∧
    (Web.xssScan respond2 url qps).vulnerabilities.countP
      (fun v => v.parameter == p) ≤ 1 := by
  constructor
  · unfold Web.sqliScan
    by_cases he : qps.isEmpty = true
    · rw [if_pos he]; simp
    · rw [if_neg he]
      exact countP_param_le_one _ _
        (fun k v h => by
          obtain ⟨payload, _, h2⟩ := List.exists_of_findSome?_eq_some h
          exact testPayload_param h2) hnd p
  · unfold Web.xssScan
    by_cases he : qps.isEmpty = true
    · rw [if_pos he]; simp
    · rw [if_neg he]
      exact countP_param_le_one _ _
        (fun k v h => by
          obtain ⟨payload, _, h2⟩ := List.exists_of_findSome?_eq_some h
          exact xssTestPayload_param h2) hnd p

/-- C1 witness: a concrete scan in which the response always reports a
SQL error, so every payload of parameter `id` matches, still records at
most one hit for `id`. -/
theorem C1_witness :
    ((([("id", "1"), ("q", "2")] : List (String × String)).map Prod.fst).Nodup) ∧
    (Web.sqliScan (fun _ _ => true) (fun _ _ => Except.ok "sql error") "u"
        [("id", "1"), ("q", "2")]).vulnerabilities.countP
      (fun v => v.parameter == "id") ≤ 1 ∧
    (Web.xssScan (fun _ _ => Except.ok "echo") "u"
        [("id", "1"), ("q", "2")]).vulnerabilities.countP
      (fun v => v.parameter == "id") ≤ 1 :=
  ⟨by decide,
   (C1_first_hit_per_group (fun _ _ => true) (fun _ _ => Except.ok "sql error")
      (fun _ _ => Except.ok "echo") "u" [("id", "1"), ("q", "2")]
      (by decide) "id").1,
   (C1_first_hit_per_group (fun _ _ => true) (fun _ _ => Except.ok "sql error")
      (fun _ _ => Except.ok "echo") "u" [("id", "1"), ("q", "2")]
      (by decide) "id").2⟩

/-- C4 counterexample: an explicitly empty wordlist is *not* rejected —
`wordlist or DEFAULT` replaces it by the 65-entry default wordlist, the
scan probes those substitute candidates (here all 65 resolve), and no
`ConfigurationError` exists anywhere in the code. -/
theorem C4_counterexample :
    (Recon.subdomainScan (fun d => Except.ok d) "example.com" (some [])
        Recon.DEFAULT_WORDLIST).data.wordlist_size = 65 ∧
    (Recon.subdomainScan (fun d => Except.ok d) "example.com" (some [])
        Recon.DEFAULT_WORDLIST).data.found_count = 65 := by
  constructor <;> rfl

/-- C4 (amended): for every candidate source given an empty wordlist, the
scan does not fail fast — it silently substitutes the built-in default
wordlist (falsy-value coalescing) and probes those candidates; the
behaviour is identical to passing no wordlist at all. -/
theorem C4_default_substitution
    (resolve : String → Except String String) (target : String)
    (order : List String)
    (respond : String → Except String Nat) (base : String)
    (order2 : List String) :
    Recon.subdomainScan resolve target (some []) order =
      Recon.subdomainScan resolve target none order ∧
    (Recon.subdomainScan resolve target (some []) order).data.wordlist_size =
      Recon.DEFAULT_WORDLIST.length ∧
    Web.dirBustScan respond base (some []) order2 =
      Web.dirBustScan respond base none order2 ∧
    (Web.dirBustScan respond base (some []) order2).total_checked =
      (Web.COMMON_DIRS ++ Web.COMMON_FILES).length :=
  ⟨rfl, rfl, rfl, rfl⟩

/-- C5: directory probe decision rule — the probe issues one GET (without
following redirects) on `base + "/" + path` and reports a hit iff the
status code is one of 200, 301, 302, 403, recording the path together
with the status code; a raised exception is a non-hit. -/
theorem C5_dir_probe_rule (respond : String → Except String Nat)
    (base path : String) :
    (∀ pr, Web.check_path respond base path = some pr ↔
      ∃ code, respond (base ++ "/" ++ path) = Except.ok code ∧
        code ∈ ([200, 301, 302, 403] : List Nat) ∧ pr = (path, code)) ∧
    (∀ e, respond (base ++ "/" ++ path) = Except.error e →
      Web.check_path respond base path = none) := by
  constructor
  · intro pr
    constructor
    · intro h
      simp only [Web.check_path] at h
      split at h
      · rename_i code heq
        split at h
        · rename_i hcond
          cases h
          exact ⟨code, heq, List.elem_iff.mp hcond, rfl⟩
        · exact absurd h (by simp)
      · exact absurd h (by simp)
    · rintro ⟨c, hok, hmem, rfl⟩
      simp only [Web.check_path, hok]
      rw [if_pos (List.elem_iff.mpr hmem)]
  · intro e he
    simp only [Web.check_path, he]

/-- C5 witness: a server answering 200 yields a hit recording the status,
a server answering 404 yields none. -/
theorem C5_witness :
    Web.check_path (fun _ => Except.ok 200) "http://x" "login" = some ("login", 200) ∧
    Web.check_path (fun _ => Except.ok 404) "http://x" "admin" = none := by
  constructor
  · exact ((C5_dir_probe_rule (fun _ => Except.ok 200) "http://x" "login").1
      ("login", 200)).mpr ⟨200, rfl, by decide, rfl⟩
  · by_contra hne
    have hsome : ∃ pr, Web.check_path (fun _ => Except.ok 404) "http://x" "admin" = some pr := by
      cases hcp : Web.check_path (fun _ => Except.ok 404) "http://x" "admin" with
      | none => exact absurd hcp hne
      | some pr => exact ⟨pr, rfl⟩
    obtain ⟨pr, hpr⟩ := hsome
    obtain ⟨c, hok, hmem, _⟩ :=
      ((C5_dir_probe_rule (fun _ => Except.ok 404) "http://x" "admin").1 pr).mp hpr
    cases hok
    simp at hmem

/-- C6: SQL-injection probe decision rule — one GET is issued with the
payload appended to the parameter's original value inside the query dict;
the probe reports a vulnerability iff the response body matches at least
one signature of `ERROR_PATTERNS`, and the recorded evidence names the
first matching signature; a raised exception is a non-hit. -/
theorem C6_sqli_probe_rule (reMatch : String → String → Bool)
    (respond : String → List (String × String) → Except String String)
    (url param payload : String) (qps : List (String × String)) :
    (∀ e, respond url (Web.dictSet qps param
        ((Web.dictGet qps param).getD "" ++ payload)) = Except.error e →
      Web.testPayload reMatch respond url param payload qps = none) ∧
    (∀ body, respond url (Web.dictSet qps param
        ((Web.dictGet qps param).getD "" ++ payload)) = Except.ok body →
      ((Web.testPayload reMatch respond url param payload qps).isSome ↔
        ∃ pat ∈ Web.ERROR_PATTERNS, reMatch pat body = true) ∧
      (∀ v, Web.testPayload reMatch respond url param payload qps = some v →
        ∃ pat, Web.ERROR_PATTERNS.find? (fun p => reMatch p body) = some pat ∧
          v = { vuln_type := "SQL Injection", severity := "HIGH", url := url,
                parameter := param, payload := payload,
                evidence := "Error pattern matched: " ++ pat })) := by
  constructor
  · intro e he
    simp only [Web.testPayload, he]
  · intro body hb
    constructor
    · rw [← List.find?_isSome (p := fun p => reMatch p body)]
      simp only [Web.testPayload, hb]
      cases Web.ERROR_PATTERNS.find? (fun p => reMatch p body) <;> simp
    · intro v hv
      simp only [Web.testPayload, hb] at hv
      cases hf : Web.ERROR_PATTERNS.find? (fun p => reMatch p body) with
      | none => rw [hf] at hv; exact absurd hv (by simp)
      | some pat =>
        rw [hf] at hv
        cases hv
        exact ⟨pat, rfl, rfl⟩

/-- C6 witness: against a body containing a MySQL error text, the probe
reports a hit whose evidence names the matched signature; against a clean
body it reports none. -/
theorem C6_witness :
    (Web.testPayload (fun pat body => strContains body pat)
        (fun _ _ => Except.ok "Warning: mysql_fetch failed") "u" "id" "1"
        [("id", "9")]).isSome = true ∧
    (Web.testPayload (fun pat body => strContains body pat)
        (fun _ _ => Except.ok "all fine") "u" "id" "1"
        [("id", "9")]).isSome ≠ true := by
  constructor
  · exact ((C6_sqli_probe_rule (fun pat body => strContains body pat)
      (fun _ _ => Except.ok "Warning: mysql_fetch failed") "u" "id" "1"
      [("id", "9")]).2 "Warning: mysql_fetch failed" rfl).1.mpr
      ⟨"mysql_fetch", by decide, by decide⟩
  · have h := ((C6_sqli_probe_rule (fun pat body => strContains body pat)
      (fun _ _ => Except.ok "all fine") "u" "id" "1"
      [("id", "9")]).2 "all fine" rfl).1
    intro hs
    have hex := h.mp hs
    revert hex
    decide

/-- C3: per-candidate failure absorption — every member of the port
scan's hit list comes from a successful zero-result connect (so a raised
exception or nonzero indicator never contributes a hit, and the scan
still returns a complete result counting all candidates), and a
SQL-injection scan whose every request raises returns a result object
with an empty vulnerability list rather than propagating the exception. -/
theorem C3_failure_absorption
    (connect : Int → Except String Int) (target : String)
    (ports : Option (List Int)) (order : List Int) :
    (∀ q, q ∈ (Recon.portScan connect target ports order).data.open_ports →
      connect q = Except.ok 0) ∧
    (Recon.portScan connect target ports order).data.total_scanned =
      (Recon.effPorts ports).length ∧
    (∀ (reMatch : String → String → Bool)
        (respond : String → List (String × String) → Except String String)
        (url : String) (qps : List (String × String)),
      (∀ u tp, ∃ e, respond u tp = Except.error e) →
      (Web.sqliScan reMatch respond url qps).vulnerabilities = [] ∧
      (Web.sqliScan reMatch respond url qps).target = url) := by
  refine ⟨?_, rfl, ?_⟩
  · intro q hq
    have hq2 : q ∈ order.filterMap (Recon.check_port connect) :=
      ((pySortInt_perm _).mem_iff).mp hq
    obtain ⟨q', _, hcp⟩ := List.mem_filterMap.mp hq2
    unfold Recon.check_port at hcp
    split at hcp
    · rename_i r heq
      split at hcp
      · rename_i hr0
        cases hcp
        rw [heq, hr0]
      · exact absurd hcp (by simp)
    · exact absurd hcp (by simp)
  · intro reMatch respond url qps hfail
    have hnone : ∀ param payload,
        Web.testPayload reMatch respond url param payload qps = none := by
      intro param payload
      obtain ⟨e, he⟩ := hfail url
        (Web.dictSet qps param ((Web.dictGet qps param).getD "" ++ payload))
      simp only [Web.testPayload, he]
    constructor
    · unfold Web.sqliScan
      by_cases he : qps.isEmpty = true
      · rw [if_pos he]
      · rw [if_neg he]
        simp only []
        rw [List.filterMap_eq_nil_iff]
        intro param _
        rw [List.findSome?_eq_none_iff]
        intro payload _
        exact hnone param payload
    · unfold Web.sqliScan
      by_cases he : qps.isEmpty = true
      · rw [if_pos he]
      · rw [if_neg he]

/-- C3 witness: a connect function that raises on port 81 and succeeds on
port 80 yields a hit list on which the theorem reports `ok 0`, and a
scan whose requests all raise returns the empty vulnerability list. -/
theorem C3_witness :
    (fun p : Int => if p = 80 then (Except.ok 0 : Except String Int)
      else Except.error "down") 80 = Except.ok 0 ∧
    (Web.sqliScan (fun _ _ => true) (fun _ _ => Except.error "refused") "u"
      [("id", "1")]).vulnerabilities = [] := by
  constructor
  · exact (C3_failure_absorption
      (fun p : Int => if p = 80 then (Except.ok 0 : Except String Int)
        else Except.error "down")
      "t" (some [80, 81]) [81, 80]).1 80 (by decide)
  · exact ((C3_failure_absorption (fun _ => Except.ok 0) "t" none []).2.2
      (fun _ _ => true) (fun _ _ => Except.error "refused") "u" [("id", "1")]
      (fun _ _ => ⟨"refused", rfl⟩)).1

/-- C2 counterexample: the DirectoryBuster stores `found_paths` in
completion order without sorting — for the wordlist `["a", "b"]` and the
possible completion order `["b", "a"]` (a permutation of the submitted
candidates), with every path answering 200, the final hits sequence is
`[("b", 200), ("a", 200)]`, which is not sorted by the candidates'
natural (lexicographic) order. -/
theorem C2_counterexample :
    (["b", "a"] : List String).Perm (Web.effDirWordlist (some ["a", "b"])) ∧
    (Web.dirBustScan (fun _ => Except.ok 200) "http://x" (some ["a", "b"])
        ["b", "a"]).found_paths = [("b", 200), ("a", 200)] ∧
    ¬ List.Pairwise (fun u v : String × Nat => pyStrLe u.1 v.1 = true)
      (Web.dirBustScan (fun _ => Except.ok 200) "http://x" (some ["a", "b"])
        ["b", "a"]).found_paths := by
  refine ⟨by decide, by decide, ?_⟩
  intro hp
  have h2 : (Web.dirBustScan (fun _ => Except.ok 200) "http://x"
      (some ["a", "b"]) ["b", "a"]).found_paths = [("b", 200), ("a", 200)] := by
    decide
  rw [h2] at hp
  have := (List.pairwise_cons.mp hp).1 ("a", 200) (by simp)
  revert this
  decide

/-- C2 (amended): for every completion order that is a permutation of the
candidate list, the port scan's final `open_ports` is sorted ascending
and the subdomain scan's final `subdomains` is sorted lexicographically
(each being a permutation of the matched candidates, independent of
scheduling); the DirectoryBuster's `found_paths`, in contrast, stays in
completion order (see the counterexample). -/
theorem C2_sorted_amended
    (connect : Int → Except String Int) (target : String)
    (ports : Option (List Int)) (order : List Int)
    (resolve : String → Except String String) (target2 : String)
    (wl : Option (List String)) (order2 : List String)
    (h1 : order.Perm (Recon.effPorts ports))
    (h2 : order2.Perm (Recon.effWordlist wl)) :
    List.Sorted (· ≤ ·) (Recon.portScan connect target ports order).data.open_ports ∧
    (Recon.portScan connect target ports order).data.open_ports.Perm
      ((Recon.effPorts ports).filterMap (Recon.check_port connect)) ∧
    List.Sorted (fun a b => pyStrLe a b = true)
      (Recon.subdomainScan resolve target2 wl order2).data.subdomains ∧
    (Recon.subdomainScan resolve target2 wl order2).data.subdomains.Perm
      ((Recon.effWordlist wl).filterMap (Recon.check_subdomain resolve target2)) :=
  ⟨pySortInt_sorted _,
   (pySortInt_perm _).trans (h1.filterMap _),
   pySortStr_sorted _,
   (pySortStr_perm _).trans (h2.filterMap _)⟩

/-- C2 witness: concrete scans whose completion orders differ from the
submission order still return sorted hit sequences. -/
theorem C2_witness :
    List.Sorted (· ≤ ·)
      (Recon.portScan (fun _ => Except.ok 0) "t" (some [2, 1]) [1, 2]).data.open_ports ∧
    List.Sorted (fun a b => pyStrLe a b = true)
      (Recon.subdomainScan (fun d => Except.ok d) "t" (some ["b", "a"])
        ["a", "b"]).data.subdomains :=
  ⟨(C2_sorted_amended (fun _ => Except.ok 0) "t" (some [2, 1]) [1, 2]
      (fun d => Except.ok d) "t" (some ["b", "a"]) ["a", "b"]
      (by decide) (by decide)).1,
   (C2_sorted_amended (fun _ => Except.ok 0) "t" (some [2, 1]) [1, 2]
      (fun d => Except.ok d) "t" (some ["b", "a"]) ["a", "b"]
      (by decide) (by decide)).2.2.1⟩

theorem identify_entry_eq_some {s : String}
    {e : Crypto.HashType × Nat × Crypto.HashPat} {t : Crypto.HashType} :
    ((if s.length = e.2.1 then
        (if Crypto.patMatch e.2.2 s then some e.1 else none)
      else none) = some t) ↔
      (s.length = e.2.1 ∧ Crypto.patMatch e.2.2 s = true ∧ e.1 = t) := by
  split_ifs with h1 h2
  · simp [h1, h2]
  · simp [h1, h2]
  · simp [h1]

/-- C7: hash-type classification returns the full match set — membership
in `identify s` is decided for every signature independently by the
length and character-class test recorded for that type (no
short-circuit), and every 32-character hexadecimal string is classified
as exactly `[MD5, NTLM]`. -/
theorem C7_hash_identify_full_match :
    (∀ (s : String) (t : Crypto.HashType), t ∈ Crypto.identify s ↔
      (s.length = Crypto.expectedLen t ∧
        Crypto.patMatch (Crypto.patOf t) s = true)) ∧
    (∀ s : String, s.length = 32 → s.toList.all Crypto.isHexCh = true →
      Crypto.identify s = [Crypto.HashType.MD5, Crypto.HashType.NTLM]) := by
  constructor
  · intro s t
    rw [Crypto.identify]
    constructor
    · intro hmem
      obtain ⟨e, he, hfe⟩ := List.mem_filterMap.mp hmem
      rw [identify_entry_eq_some] at hfe
      obtain ⟨hl, hm, hte⟩ := hfe
      subst hte
      fin_cases he <;> exact ⟨hl, hm⟩
    · rintro ⟨hl, hm⟩
      apply List.mem_filterMap.mpr
      cases t with
      | MD5 => exact ⟨(Crypto.HashType.MD5, 32, Crypto.HashPat.hexOf 32),
          by decide, identify_entry_eq_some.mpr ⟨hl, hm, rfl⟩⟩
      | SHA1 => exact ⟨(Crypto.HashType.SHA1, 40, Crypto.HashPat.hexOf 40),
          by decide, identify_entry_eq_some.mpr ⟨hl, hm, rfl⟩⟩
      | SHA256 => exact ⟨(Crypto.HashType.SHA256, 64, Crypto.HashPat.hexOf 64),
          by decide, identify_entry_eq_some.mpr ⟨hl, hm, rfl⟩⟩
      | SHA512 => exact ⟨(Crypto.HashType.SHA512, 128, Crypto.HashPat.hexOf 128),
          by decide, identify_entry_eq_some.mpr ⟨hl, hm, rfl⟩⟩
      | NTLM => exact ⟨(Crypto.HashType.NTLM, 32, Crypto.HashPat.hexOf 32),
          by decide, identify_entry_eq_some.mpr ⟨hl, hm, rfl⟩⟩
      | BCRYPT => exact ⟨(Crypto.HashType.BCRYPT, 60, Crypto.HashPat.bcryptPat),
          by decide, identify_entry_eq_some.mpr ⟨hl, hm, rfl⟩⟩
  · intro s h1 h2
    have h2' : ∀ x ∈ s.data, Crypto.isHexCh x = true := by
      rw [← List.all_eq_true]
      exact h2
    rw [Crypto.identify, Crypto.PATTERNS]
    simp [List.filterMap_cons, Crypto.patMatch, h1, h2']
    rw [if_pos h2', if_pos h2']

/-- C7 witness: a concrete 32-character hex digest is identified as both
MD5 and NTLM. -/
theorem C7_witness :
    Crypto.identify "5f4dcc3b5aa765d61d8327deb882cf99" =
      [Crypto.HashType.MD5, Crypto.HashType.NTLM] :=
  C7_hash_identify_full_match.2 "5f4dcc3b5aa765d61d8327deb882cf99"
    (by decide) (by decide)

/-- C9: hash-cracker soundness — whenever `dictionary_attack` returns a
plaintext it is a stripped line of the wordlist whose hash (under the
requested type) equals the lowercased target, and `None` means no tried
candidate hashed to it; likewise `brute_force` only returns candidates
hashing to the lowercased target, and `None` means no candidate over the
charset within the length bounds did. -/
theorem C9_cracker_sound (P : Crypto.HashPrims) (hash_value : String)
    (t : Crypto.HashType) (file : Except String (List String)) :
    (∀ w, Crypto.dictionary_attack P hash_value t file = some w →
      Crypto.hashString P t w = Crypto.pyToLower hash_value ∧
      ∃ lines, file = Except.ok lines ∧
        ∃ line ∈ lines, w = Crypto.pyStrip line) ∧
    (∀ lines, file = Except.ok lines →
      Crypto.dictionary_attack P hash_value t file = none →
      ∀ line ∈ lines,
        Crypto.hashString P t (Crypto.pyStrip line) ≠
          Crypto.pyToLower hash_value) ∧
    (∀ charset mn mx w, Crypto.brute_force P hash_value t charset mn mx = some w →
      Crypto.hashString P t w = Crypto.pyToLower hash_value) ∧
    (∀ charset mn mx, Crypto.brute_force P hash_value t charset mn mx = none →
      ∀ len, mn ≤ len → len ≤ mx →
        ∀ tup ∈ Crypto.allStrings ((Crypto.effCharset charset).toList) len,
          Crypto.hashString P t (String.mk tup) ≠
            Crypto.pyToLower hash_value) := by
  refine ⟨?_, ?_, ?_, ?_⟩
  · intro w h
    cases file with
    | error e => simp [Crypto.dictionary_attack] at h
    | ok lines =>
      simp only [Crypto.dictionary_attack] at h
      obtain ⟨line, hline, hf⟩ := List.exists_of_findSome?_eq_some h
      split_ifs at hf with hcond
      cases hf
      exact ⟨hcond, lines, rfl, line, hline, rfl⟩
  · intro lines hfl hnone line hline
    rw [hfl] at hnone
    simp only [Crypto.dictionary_attack] at hnone
    rw [List.findSome?_eq_none_iff] at hnone
    have hl := hnone line hline
    intro heq
    simp [heq] at hl
  · intro charset mn mx w h
    simp only [Crypto.brute_force] at h
    obtain ⟨len, _, hf2⟩ := List.exists_of_findSome?_eq_some h
    obtain ⟨tup, _, hf3⟩ := List.exists_of_findSome?_eq_some hf2
    split_ifs at hf3 with hcond
    cases hf3
    exact hcond
  · intro charset mn mx hn len hmn hlx tup htup
    simp only [Crypto.brute_force] at hn
    rw [List.findSome?_eq_none_iff] at hn
    have h5 := hn len (List.mem_range'_1.mpr ⟨hmn, by omega⟩)
    rw [List.findSome?_eq_none_iff] at h5
    have h6 := h5 tup htup
    intro heq
    simp [heq] at h6

/-- C9 witness: with identity hash primitives, cracking the "hash" `abc`
from the wordlist line `abc` returns `abc`, whose hash is the lowercased
target. -/
theorem C9_witness :
    Crypto.hashString ⟨id, id, id, id, id⟩ Crypto.HashType.MD5 "abc" =
      Crypto.pyToLower "abc" ∧
    ∃ lines, (Except.ok ["abc"] : Except String (List String)) = Except.ok lines ∧
      ∃ line ∈ lines, "abc" = Crypto.pyStrip line :=
  (C9_cracker_sound ⟨id, id, id, id, id⟩ "abc" Crypto.HashType.MD5
    (Except.ok ["abc"])).1 "abc" (by decide)

theorem find?_range'_eq_some {f : Nat → Bool} {a n p : Nat} :
    (List.range' a n).find? f = some p ↔
      (a ≤ p ∧ p < a + n ∧ f p = true ∧ ∀ i, a ≤ i → i < p → f i = false) := by
  induction n generalizing a with
  | zero =>
    constructor
    · intro h
      simp [List.range'] at h
    · rintro ⟨h1, h2, _⟩
      exact absurd h2 (by omega)
  | succ n ih =>
    rw [List.range'_succ, List.find?_cons]
    cases hfa : f a with
    | true =>
      constructor
      · intro h
        cases h
        exact ⟨Nat.le_refl _, by omega, hfa, fun i h1 h2 => absurd h2 (by omega)⟩
      · rintro ⟨h1, h2, hfp, hmin⟩
        by_cases hpa : p = a
        · rw [hpa]
        · have hext := hmin a (Nat.le_refl a) (by omega)
          rw [hfa] at hext
          exact absurd hext (by simp)
    | false =>
      rw [ih]
      constructor
      · rintro ⟨h1, h2, hfp, hmin⟩
        refine ⟨by omega, by omega, hfp, fun i hi1 hi2 => ?_⟩
        by_cases hia : i = a
        · rw [hia]; exact hfa
        · exact hmin i (by omega) hi2
      · rintro ⟨h1, h2, hfp, hmin⟩
        have hpa : p ≠ a := by
          intro he
          rw [he, hfa] at hfp
          exact absurd hfp (by simp)
        exact ⟨by omega, by omega, hfp, fun i hi1 hi2 => hmin i (by omega) hi2⟩

theorem byteFind_eq_some_iff {data pat : List Nat} {s p : Nat} :
    Forensics.byteFind data pat s = some p ↔
      (s ≤ p ∧ p ≤ data.length ∧ Forensics.matchAt data pat p = true ∧
       ∀ i, s ≤ i → i < p → Forensics.matchAt data pat i = false) := by
  unfold Forensics.byteFind
  rw [List.range_eq_range', find?_range'_eq_some]
  constructor
  · rintro ⟨h1, h2, h3, h4⟩
    rw [Bool.and_eq_true, decide_eq_true_eq] at h3
    refine ⟨h3.1, by omega, h3.2, fun i hi1 hi2 => ?_⟩
    have hcomb := h4 i (by omega) hi2
    rw [decide_eq_true hi1, Bool.true_and] at hcomb
    exact hcomb
  · rintro ⟨h1, h2, h3, h4⟩
    refine ⟨by omega, by omega, ?_, fun i _ hi2 => ?_⟩
    · rw [Bool.and_eq_true, decide_eq_true_eq]
      exact ⟨h1, h3⟩
    · by_cases hsi : s ≤ i
      · rw [h4 i hsi hi2, Bool.and_false]
      · rw [decide_eq_false hsi, Bool.false_and]

theorem carveLoop_props (data : List Nat) (sig : Forensics.FileSig) :
    ∀ fuel start,
      (∀ u ∈ Forensics.carveLoop data sig fuel start,
        Forensics.matchAt data sig.header u.1 = true ∧
        u.2 = Forensics.unitEnd data sig u.1) ∧
      List.Chain' (fun u v => Forensics.byteFind data sig.header u.2 = some v.1)
        (Forensics.carveLoop data sig fuel start) ∧
      (∀ u, (Forensics.carveLoop data sig fuel start).head? = some u →
        Forensics.byteFind data sig.header start = some u.1) := by
  intro fuel
  induction fuel with
  | zero =>
    intro start
    refine ⟨by simp [Forensics.carveLoop], by simp [Forensics.carveLoop],
      by simp [Forensics.carveLoop]⟩
  | succ n ih =>
    intro start
    cases hbf : Forensics.byteFind data sig.header start with
    | none =>
      simp only [Forensics.carveLoop, hbf]
      exact ⟨by simp, by simp, by simp⟩
    | some pos =>
      simp only [Forensics.carveLoop, hbf]
      have hm := (byteFind_eq_some_iff.mp hbf).2.2.1
      obtain ⟨ihmem, ihchain, ihhead⟩ := ih (Forensics.unitEnd data sig pos)
      refine ⟨?_, ?_, ?_⟩
      · intro u hu
        rcases List.mem_cons.mp hu with rfl | hmem
        · exact ⟨hm, rfl⟩
        · exact ihmem u hmem
      · rw [List.chain'_cons']
        exact ⟨fun y hy => ihhead y hy, ihchain⟩
      · intro u hu
        rw [List.head?_cons] at hu
        cases hu
        rfl

/-- C8: file-carving unit delimitation — `byteFind` locates exactly the
least occurrence at or after the scan position; every carved unit starts
at a header occurrence and ends at `unitEnd` (end of the nearest
following footer, or the 10MB maximum capped at the end of the data when
no footer is configured or found); successive units are linked by
scanning forward from the previous unit's end; and the extracted bytes
are the `data[pos:end]` slices. -/
theorem C8_carve_delimitation (data : List Nat) (sig : Forensics.FileSig) :
    (∀ pat s p, Forensics.byteFind data pat s = some p ↔
      (s ≤ p ∧ p ≤ data.length ∧ Forensics.matchAt data pat p = true ∧
       ∀ i, s ≤ i → i < p → Forensics.matchAt data pat i = false)) ∧
    (∀ u ∈ Forensics.carveUnits data sig,
      Forensics.matchAt data sig.header u.1 = true ∧
      u.2 = Forensics.unitEnd data sig u.1) ∧
    List.Chain' (fun u v => Forensics.byteFind data sig.header u.2 = some v.1)
      (Forensics.carveUnits data sig) ∧
    (∀ u, (Forensics.carveUnits data sig).head? = some u →
      Forensics.byteFind data sig.header 0 = some u.1) ∧
    Forensics.carveBytes data sig =
      (Forensics.carveUnits data sig).map
        (fun u => (data.drop u.1).take (u.2 - u.1)) := by
  have h := carveLoop_props data sig (data.length + 1) 0
  exact ⟨fun pat s p => byteFind_eq_some_iff, h.1, h.2.1, h.2.2, rfl⟩

/-- C8 witness: a JPEG header followed by 20 trailing bytes and no
footer is carved as one unit running to `min(pos + 10MB, len)`, i.e. the
end of the data. -/
theorem C8_witness :
    Forensics.carveUnits ([0xff, 0xd8, 0xff] ++ List.replicate 20 7)
      Forensics.jpegSig = [(0, 23)] ∧
    Forensics.matchAt ([0xff, 0xd8, 0xff] ++ List.replicate 20 7)
      Forensics.jpegSig.header 0 = true ∧
    (23 : Nat) =
      Forensics.unitEnd ([0xff, 0xd8, 0xff] ++ List.replicate 20 7)
        Forensics.jpegSig 0 := by
  refine ⟨by decide, ?_, ?_⟩
  · exact ((C8_carve_delimitation ([0xff, 0xd8, 0xff] ++ List.replicate 20 7)
      Forensics.jpegSig).2.1 (0, 23) (by decide)).1
  · exact ((C8_carve_delimitation ([0xff, 0xd8, 0xff] ++ List.replicate 20 7)
      Forensics.jpegSig).2.1 (0, 23) (by decide)).2

theorem toNat_ofNat_valid {n : Nat} (h : n.isValidChar) :
    (Char.ofNat n).toNat = n := by
  simp [Char.ofNat, h, Char.ofNatAux, Char.toNat]
  rfl

theorem char_toNat_valid (c : Char) :
    c.toNat < 0xD800 ∨ (0xDFFF < c.toNat ∧ c.toNat < 0x110000) := by
  rcases c.valid with h | h
  · exact Or.inl h
  · exact Or.inr h

theorem utf8Step_one (b : Nat) (bs : List Nat) (h0 : b < 0x80) :
    Crypto.utf8Step b bs = some (b, bs) := by
  unfold Crypto.utf8Step
  rw [if_pos h0]

theorem utf8Step_two (b b1 : Nat) (bs : List Nat) (h0 : ¬ b < 0x80)
    (h1 : b < 0xE0) (hc : 0xC2 ≤ b ∧ b1 / 64 = 2) :
    Crypto.utf8Step b (b1 :: bs) = some ((b - 0xC0) * 64 + (b1 - 0x80), bs) := by
  unfold Crypto.utf8Step
  rw [if_neg h0, if_pos h1]
  show (if 0xC2 ≤ b ∧ b1 / 64 = 2 then
      some ((b - 0xC0) * 64 + (b1 - 0x80), bs) else none) = _
  rw [if_pos hc]

theorem utf8Step_three (b b1 b2 : Nat) (bs : List Nat) (h0 : ¬ b < 0x80)
    (h1 : ¬ b < 0xE0) (h2 : b < 0xF0)
    (hc : (b1 / 64 = 2 ∧ b2 / 64 = 2) ∧
      0x800 ≤ (b - 0xE0) * 4096 + (b1 - 0x80) * 64 + (b2 - 0x80) ∧
      ¬(0xD800 ≤ (b - 0xE0) * 4096 + (b1 - 0x80) * 64 + (b2 - 0x80) ∧
        (b - 0xE0) * 4096 + (b1 - 0x80) * 64 + (b2 - 0x80) ≤ 0xDFFF)) :
    Crypto.utf8Step b (b1 :: b2 :: bs) =
      some ((b - 0xE0) * 4096 + (b1 - 0x80) * 64 + (b2 - 0x80), bs) := by
  unfold Crypto.utf8Step
  rw [if_neg h0, if_neg h1, if_pos h2]
  show (if (b1 / 64 = 2 ∧ b2 / 64 = 2) ∧
      0x800 ≤ (b - 0xE0) * 4096 + (b1 - 0x80) * 64 + (b2 - 0x80) ∧
      ¬(0xD800 ≤ (b - 0xE0) * 4096 + (b1 - 0x80) * 64 + (b2 - 0x80) ∧
        (b - 0xE0) * 4096 + (b1 - 0x80) * 64 + (b2 - 0x80) ≤ 0xDFFF) then
      some ((b - 0xE0) * 4096 + (b1 - 0x80) * 64 + (b2 - 0x80), bs) else none) = _
  rw [if_pos hc]

theorem utf8Step_four (b b1 b2 b3 : Nat) (bs : List Nat) (h0 : ¬ b < 0x80)
    (h1 : ¬ b < 0xE0) (h2 : ¬ b < 0xF0) (h3 : b < 0xF5)
    (hc : (b1 / 64 = 2 ∧ b2 / 64 = 2 ∧ b3 / 64 = 2) ∧
      0x10000 ≤ (b - 0xF0) * 262144 + (b1 - 0x80) * 4096 +
        (b2 - 0x80) * 64 + (b3 - 0x80) ∧
      (b - 0xF0) * 262144 + (b1 - 0x80) * 4096 +
        (b2 - 0x80) * 64 + (b3 - 0x80) < 0x110000) :
    Crypto.utf8Step b (b1 :: b2 :: b3 :: bs) =
      some ((b - 0xF0) * 262144 + (b1 - 0x80) * 4096 +
        (b2 - 0x80) * 64 + (b3 - 0x80), bs) := by
  unfold Crypto.utf8Step
  rw [if_neg h0, if_neg h1, if_neg h2, if_pos h3]
  show (if (b1 / 64 = 2 ∧ b2 / 64 = 2 ∧ b3 / 64 = 2) ∧
      0x10000 ≤ (b - 0xF0) * 262144 + (b1 - 0x80) * 4096 +
        (b2 - 0x80) * 64 + (b3 - 0x80) ∧
      (b - 0xF0) * 262144 + (b1 - 0x80) * 4096 +
        (b2 - 0x80) * 64 + (b3 - 0x80) < 0x110000 then
      some ((b - 0xF0) * 262144 + (b1 - 0x80) * 4096 +
        (b2 - 0x80) * 64 + (b3 - 0x80), bs) else none) = _
  rw [if_pos hc]

theorem utf8DecodeAux_cons (fuel : Nat) (b : Nat) (bs rest : List Nat) (c : Nat)
    (hstep : Crypto.utf8Step b bs = some (c, rest)) :
    Crypto.utf8DecodeAux (fuel + 1) (b :: bs) =
      (Crypto.utf8DecodeAux fuel rest).map (fun l => Char.ofNat c :: l) := by
  show (match Crypto.utf8Step b bs with
    | some (c, rest) =>
      (Crypto.utf8DecodeAux fuel rest).map (fun l => Char.ofNat c :: l)
    | none => none) = _
  rw [hstep]

theorem utf8DecodeAux_enc : ∀ (cs : List Char) (fuel : Nat),
    (cs.flatMap (fun c => Crypto.utf8EncodeChar c.toNat)).length ≤ fuel →
    Crypto.utf8DecodeAux fuel
      (cs.flatMap (fun c => Crypto.utf8EncodeChar c.toNat)) = some cs := by
  intro cs
  induction cs with
  | nil =>
    intro fuel _
    cases fuel <;> rfl
  | cons c cs ih =>
    intro fuel hf
    rw [List.flatMap_cons] at hf ⊢
    set rest := cs.flatMap (fun x => Crypto.utf8EncodeChar x.toNat) with hrest
    have hval := char_toNat_valid c
    by_cases h0 : c.toNat < 0x80
    · have he : Crypto.utf8EncodeChar c.toNat = [c.toNat] := by
        unfold Crypto.utf8EncodeChar
        rw [if_pos h0]
      rw [he] at hf ⊢
      simp only [List.cons_append, List.nil_append] at hf ⊢
      cases fuel with
      | zero => simp at hf
      | succ f =>
        rw [utf8DecodeAux_cons f c.toNat rest rest c.toNat
          (utf8Step_one c.toNat rest h0)]
        rw [ih f (by simp at hf; omega)]
        simp [Char.ofNat_toNat]
    · by_cases h1 : c.toNat < 0x800
      · have he : Crypto.utf8EncodeChar c.toNat =
            [0xC0 + c.toNat / 64, 0x80 + c.toNat % 64] := by
          unfold Crypto.utf8EncodeChar
          rw [if_neg h0, if_pos h1]
        rw [he] at hf ⊢
        simp only [List.cons_append, List.nil_append] at hf ⊢
        cases fuel with
        | zero => simp at hf
        | succ f =>
          rw [utf8DecodeAux_cons f (0xC0 + c.toNat / 64)
            ((0x80 + c.toNat % 64) :: rest) rest
            ((0xC0 + c.toNat / 64 - 0xC0) * 64 + (0x80 + c.toNat % 64 - 0x80))
            (utf8Step_two (0xC0 + c.toNat / 64) (0x80 + c.toNat % 64) rest
              (by omega) (by omega) (by omega))]
          have harith : (0xC0 + c.toNat / 64 - 0xC0) * 64 +
              (0x80 + c.toNat % 64 - 0x80) = c.toNat := by omega
          rw [harith, ih f (by simp at hf; omega)]
          simp [Char.ofNat_toNat]
      · by_cases h2 : c.toNat < 0x10000
        · have he : Crypto.utf8EncodeChar c.toNat =
              [0xE0 + c.toNat / 4096, 0x80 + c.toNat / 64 % 64,
               0x80 + c.toNat % 64] := by
            unfold Crypto.utf8EncodeChar
            rw [if_neg h0, if_neg h1, if_pos h2]
          rw [he] at hf ⊢
          simp only [List.cons_append, List.nil_append] at hf ⊢
          cases fuel with
          | zero => simp at hf
          | succ f =>
            rw [utf8DecodeAux_cons f (0xE0 + c.toNat / 4096)
              ((0x80 + c.toNat / 64 % 64) :: (0x80 + c.toNat % 64) :: rest) rest
              ((0xE0 + c.toNat / 4096 - 0xE0) * 4096 +
                (0x80 + c.toNat / 64 % 64 - 0x80) * 64 +
                (0x80 + c.toNat % 64 - 0x80))
              (utf8Step_three (0xE0 + c.toNat / 4096) (0x80 + c.toNat / 64 % 64)
                (0x80 + c.toNat % 64) rest
                (by omega) (by omega) (by omega) (by omega))]
            have harith : (0xE0 + c.toNat / 4096 - 0xE0) * 4096 +
                (0x80 + c.toNat / 64 % 64 - 0x80) * 64 +
                (0x80 + c.toNat % 64 - 0x80) = c.toNat := by omega
            rw [harith, ih f (by simp at hf; omega)]
            simp [Char.ofNat_toNat]
        · have h3 : c.toNat < 0x110000 := by omega
          have he : Crypto.utf8EncodeChar c.toNat =
              [0xF0 + c.toNat / 262144, 0x80 + c.toNat / 4096 % 64,
               0x80 + c.toNat / 64 % 64, 0x80 + c.toNat % 64] := by
            unfold Crypto.utf8EncodeChar
            rw [if_neg h0, if_neg h1, if_neg h2]
          rw [he] at hf ⊢
          simp only [List.cons_append, List.nil_append] at hf ⊢
          cases fuel with
          | zero => simp at hf
          | succ f =>
            rw [utf8DecodeAux_cons f (0xF0 + c.toNat / 262144)
              ((0x80 + c.toNat / 4096 % 64) :: (0x80 + c.toNat / 64 % 64) ::
                (0x80 + c.toNat % 64) :: rest) rest
              ((0xF0 + c.toNat / 262144 - 0xF0) * 262144 +
                (0x80 + c.toNat / 4096 % 64 - 0x80) * 4096 +
                (0x80 + c.toNat / 64 % 64 - 0x80) * 64 +
                (0x80 + c.toNat % 64 - 0x80))
              (utf8Step_four (0xF0 + c.toNat / 262144) (0x80 + c.toNat / 4096 % 64)
                (0x80 + c.toNat / 64 % 64) (0x80 + c.toNat % 64) rest
                (by omega) (by omega) (by omega) (by omega) (by omega))]
            have harith : (0xF0 + c.toNat / 262144 - 0xF0) * 262144 +
                (0x80 + c.toNat / 4096 % 64 - 0x80) * 4096 +
                (0x80 + c.toNat / 64 % 64 - 0x80) * 64 +
                (0x80 + c.toNat % 64 - 0x80) = c.toNat := by omega
            rw [harith, ih f (by simp at hf; omega)]
            simp [Char.ofNat_toNat]

theorem utf8Encode_decode (s : String) :
    Crypto.utf8Decode (Crypto.pyEncodeUtf8 s) = some s.toList := by
  unfold Crypto.utf8Decode Crypto.pyEncodeUtf8
  exact utf8DecodeAux_enc s.toList _ (Nat.le_refl _)

theorem utf8EncodeChar_lt_256 {n : Nat} (h : n < 0x110000) :
    ∀ b ∈ Crypto.utf8EncodeChar n, b < 256 := by
  intro b hb
  unfold Crypto.utf8EncodeChar at hb
  split_ifs at hb with h1 h2 h3
  · simp at hb; omega
  · simp at hb; rcases hb with rfl | rfl <;> omega
  · simp at hb; rcases hb with rfl | rfl | rfl <;> omega
  · simp at hb; rcases hb with rfl | rfl | rfl | rfl <;> omega

theorem pyEncodeUtf8_lt_256 (s : String) :
    ∀ b ∈ Crypto.pyEncodeUtf8 s, b < 256 := by
  intro b hb
  unfold Crypto.pyEncodeUtf8 at hb
  obtain ⟨c, _, hc⟩ := List.mem_flatMap.mp hb
  have hcv : c.toNat < 0x110000 := by
    rcases char_toNat_valid c with h | h <;> omega
  exact utf8EncodeChar_lt_256 hcv b hc

theorem hexDigit_props (n : Nat) (h : n < 16) :
    Crypto.hexDigit n < 0xD800 ∧ Crypto.hexDigit n ≠ 32 := by
  unfold Crypto.hexDigit
  split_ifs <;> omega

theorem hexVal_hexDigit (n : Nat) (h : n < 16) :
    Crypto.hexVal (Crypto.hexDigit n) = some n := by
  unfold Crypto.hexVal Crypto.hexDigit
  split_ifs <;> try (exfalso; omega)
  all_goals (congr 1; omega)

theorem bytesFromHex_bytesHex : ∀ (bs : List Nat), (∀ b ∈ bs, b < 256) →
    Crypto.bytesFromHex (Crypto.bytesHex bs) = some bs := by
  intro bs
  induction bs with
  | nil => intro _; rfl
  | cons b tl ih =>
    intro h
    have hb : b < 256 := h b (by simp)
    have htl := ih (fun x hx => h x (by simp [hx]))
    have hsplit : Crypto.bytesHex (b :: tl) =
        Crypto.hexDigit (b / 16) :: Crypto.hexDigit (b % 16) ::
          Crypto.bytesHex tl := rfl
    rw [hsplit]
    rw [Crypto.bytesFromHex]
    rw [if_neg (hexDigit_props (b / 16) (by omega)).2]
    show (match Crypto.hexVal (Crypto.hexDigit (b / 16)),
        Crypto.hexVal (Crypto.hexDigit (b % 16)) with
      | some h, some l => (Crypto.bytesFromHex (Crypto.bytesHex tl)).map
          (fun bs => (h * 16 + l) :: bs)
      | _, _ => none) = some (b :: tl)
    rw [hexVal_hexDigit (b / 16) (by omega), hexVal_hexDigit (b % 16) (by omega)]
    show (Crypto.bytesFromHex (Crypto.bytesHex tl)).map
      (fun l => (b / 16 * 16 + b % 16) :: l) = some (b :: tl)
    rw [htl]
    have harith : b / 16 * 16 + b % 16 = b := by omega
    simp [harith]

theorem mk_toList (s : String) : String.mk s.toList = s := rfl

theorem map_toNat_map_ofNat : ∀ (l : List Nat), (∀ b ∈ l, b < 0xD800) →
    (l.map Char.ofNat).map Char.toNat = l := by
  intro l
  induction l with
  | nil => intro _; rfl
  | cons b tl ih =>
    intro h
    have hb : b < 0xD800 := h b (by simp)
    have hv : b.isValidChar := Or.inl hb
    simp only [List.map_cons]
    rw [toNat_ofNat_valid hv, ih (fun x hx => h x (by simp [hx]))]

theorem bytesHex_bound (bs : List Nat) (h : ∀ b ∈ bs, b < 256) :
    ∀ c ∈ Crypto.bytesHex bs, c < 0xD800 := by
  intro c hc
  unfold Crypto.bytesHex at hc
  obtain ⟨b, hbmem, hcm⟩ := List.mem_flatMap.mp hc
  have hb := h b hbmem
  rcases List.mem_cons.mp hcm with rfl | hcm2
  · exact (hexDigit_props (b / 16) (by omega)).1
  · rcases List.mem_cons.mp hcm2 with rfl | hcm3
    · exact (hexDigit_props (b % 16) (by omega)).1
    · exact absurd hcm3 (by simp)

theorem hex_roundtrip (s : String) :
    Crypto.hex_decode (Crypto.hex_encode s) = s := by
  unfold Crypto.hex_decode Crypto.hex_encode
  have h1 : (String.mk ((Crypto.bytesHex (Crypto.pyEncodeUtf8 s)).map
      Char.ofNat)).toList = (Crypto.bytesHex (Crypto.pyEncodeUtf8 s)).map
      Char.ofNat := rfl
  rw [h1]
  rw [map_toNat_map_ofNat _ (bytesHex_bound _ (pyEncodeUtf8_lt_256 s))]
  rw [bytesFromHex_bytesHex _ (pyEncodeUtf8_lt_256 s)]
  show (match Crypto.utf8Decode (Crypto.pyEncodeUtf8 s) with
    | some cs => String.mk cs
    | none => "") = s
  rw [utf8Encode_decode]
  rfl

theorem b64Index_b64Char : ∀ n, n < 64 →
    Crypto.b64Index (Crypto.b64Char n) = some n := by decide

theorem b64Char_lt : ∀ n, n < 64 → Crypto.b64Char n < 0xD800 := by decide

theorem b64Char_ne61 : ∀ n, n < 64 → Crypto.b64Char n ≠ 61 := by decide

theorem b64Encode_facts : ∀ (bs : List Nat), (∀ b ∈ bs, b < 256) →
    (∀ c ∈ Crypto.b64EncodeBytes bs,
      ((Crypto.b64Index c).isSome || decide (c = 61)) = true ∧ c < 0xD800) ∧
    (Crypto.b64EncodeBytes bs).length % 4 = 0 ∧
    Crypto.b64DecodeChunks (Crypto.b64EncodeBytes bs) = some bs := by
  intro bs
  induction bs using Crypto.b64EncodeBytes.induct with
  | case1 =>
    intro _
    exact ⟨by simp [Crypto.b64EncodeBytes], by simp [Crypto.b64EncodeBytes], rfl⟩
  | case2 b1 =>
    intro h
    have hb1 : b1 < 256 := h b1 (by simp)
    have hsplit : Crypto.b64EncodeBytes [b1] =
        [Crypto.b64Char (b1 / 4), Crypto.b64Char (b1 % 4 * 16), 61, 61] := rfl
    refine ⟨?_, by rw [hsplit]; simp, ?_⟩
    · intro c hc
      rw [hsplit] at hc
      fin_cases hc
      · exact ⟨by rw [b64Index_b64Char _ (by omega)]; rfl, b64Char_lt _ (by omega)⟩
      · exact ⟨by rw [b64Index_b64Char _ (by omega)]; rfl, b64Char_lt _ (by omega)⟩
      · exact ⟨by decide, by decide⟩
      · exact ⟨by decide, by decide⟩
    · rw [hsplit, Crypto.b64DecodeChunks]
      rw [b64Index_b64Char (b1 / 4) (by omega),
        b64Index_b64Char (b1 % 4 * 16) (by omega)]
      simp
      omega
  | case3 b1 b2 =>
    intro h
    have hb1 : b1 < 256 := h b1 (by simp)
    have hb2 : b2 < 256 := h b2 (by simp)
    have hsplit : Crypto.b64EncodeBytes [b1, b2] =
        [Crypto.b64Char (b1 / 4), Crypto.b64Char (b1 % 4 * 16 + b2 / 16),
         Crypto.b64Char (b2 % 16 * 4), 61] := rfl
    refine ⟨?_, by rw [hsplit]; simp, ?_⟩
    · intro c hc
      rw [hsplit] at hc
      fin_cases hc
      · exact ⟨by rw [b64Index_b64Char _ (by omega)]; rfl, b64Char_lt _ (by omega)⟩
      · exact ⟨by rw [b64Index_b64Char _ (by omega)]; rfl, b64Char_lt _ (by omega)⟩
      · exact ⟨by rw [b64Index_b64Char _ (by omega)]; rfl, b64Char_lt _ (by omega)⟩
      · exact ⟨by decide, by decide⟩
    · rw [hsplit, Crypto.b64DecodeChunks]
      rw [b64Index_b64Char (b1 / 4) (by omega),
        b64Index_b64Char (b1 % 4 * 16 + b2 / 16) (by omega)]
      have hne : Crypto.b64Char (b2 % 16 * 4) ≠ 61 := b64Char_ne61 _ (by omega)
      simp [hne, b64Index_b64Char (b2 % 16 * 4) (by omega)]
      constructor <;> omega
  | case4 b1 b2 b3 rest ih =>
    intro h
    have hb1 : b1 < 256 := h b1 (by simp)
    have hb2 : b2 < 256 := h b2 (by simp)
    have hb3 : b3 < 256 := h b3 (by simp)
    have hrest := ih (fun x hx => h x (by simp [hx]))
    have hsplit : Crypto.b64EncodeBytes (b1 :: b2 :: b3 :: rest) =
        Crypto.b64Char (b1 / 4) :: Crypto.b64Char (b1 % 4 * 16 + b2 / 16) ::
        Crypto.b64Char (b2 % 16 * 4 + b3 / 64) :: Crypto.b64Char (b3 % 64) ::
        Crypto.b64EncodeBytes rest := rfl
    refine ⟨?_, ?_, ?_⟩
    · intro c hc
      rw [hsplit] at hc
      rcases List.mem_cons.mp hc with rfl | hc2
      · exact ⟨by rw [b64Index_b64Char _ (by omega)]; rfl, b64Char_lt _ (by omega)⟩
      · rcases List.mem_cons.mp hc2 with rfl | hc3
        · exact ⟨by rw [b64Index_b64Char _ (by omega)]; rfl,
            b64Char_lt _ (by omega)⟩
        · rcases List.mem_cons.mp hc3 with rfl | hc4
          · exact ⟨by rw [b64Index_b64Char _ (by omega)]; rfl,
              b64Char_lt _ (by omega)⟩
          · rcases List.mem_cons.mp hc4 with rfl | hc5
            · exact ⟨by rw [b64Index_b64Char _ (by omega)]; rfl,
                b64Char_lt _ (by omega)⟩
            · exact hrest.1 c hc5
    · rw [hsplit]
      simp only [List.length_cons]
      omega
    · rw [hsplit, Crypto.b64DecodeChunks]
      rw [b64Index_b64Char (b1 / 4) (by omega),
        b64Index_b64Char (b1 % 4 * 16 + b2 / 16) (by omega)]
      have hne3 : Crypto.b64Char (b2 % 16 * 4 + b3 / 64) ≠ 61 :=
        b64Char_ne61 _ (by omega)
      have hne4 : Crypto.b64Char (b3 % 64) ≠ 61 := b64Char_ne61 _ (by omega)
      simp [hne3, hne4, b64Index_b64Char (b2 % 16 * 4 + b3 / 64) (by omega),
        b64Index_b64Char (b3 % 64) (by omega), hrest.2.2]
      refine ⟨by omega, by omega, by omega⟩

theorem b64DecodeBytes_enc (bs : List Nat) (h : ∀ b ∈ bs, b < 256) :
    Crypto.b64DecodeBytes (Crypto.b64EncodeBytes bs) = some bs := by
  obtain ⟨hmem, hlen, hchunks⟩ := b64Encode_facts bs h
  simp only [Crypto.b64DecodeBytes]
  have hfilter : (Crypto.b64EncodeBytes bs).filter
      (fun c => (Crypto.b64Index c).isSome || decide (c = 61)) =
      Crypto.b64EncodeBytes bs :=
    List.filter_eq_self.mpr (fun c hc => (hmem c hc).1)
  rw [hfilter, if_pos hlen, hchunks]

theorem b64_roundtrip (s : String) :
    Crypto.base64_decode (Crypto.base64_encode s) = s := by
  unfold Crypto.base64_decode Crypto.base64_encode
  have h1 : (String.mk ((Crypto.b64EncodeBytes (Crypto.pyEncodeUtf8 s)).map
      Char.ofNat)).toList =
      (Crypto.b64EncodeBytes (Crypto.pyEncodeUtf8 s)).map Char.ofNat := rfl
  rw [h1]
  rw [map_toNat_map_ofNat _ (fun c hc =>
    ((b64Encode_facts _ (pyEncodeUtf8_lt_256 s)).1 c hc).2)]
  rw [b64DecodeBytes_enc _ (pyEncodeUtf8_lt_256 s)]
  show (match Crypto.utf8Decode (Crypto.pyEncodeUtf8 s) with
    | some cs => String.mk cs
    | none => "") = s
  rw [utf8Encode_decode]
  rfl

theorem rot13Char_invol : ∀ n, n < 128 →
    Crypto.rot13Char (Crypto.rot13Char n) = n := by decide

theorem rot13Char_lt_128 : ∀ n, n < 128 → Crypto.rot13Char n < 128 := by decide

theorem rot13_rot13_ascii (s : String) (h : ∀ c ∈ s.toList, c.toNat < 128) :
    Crypto.rot13 (Crypto.rot13 s) = s := by
  unfold Crypto.rot13
  have h1 : (String.mk (s.toList.map (fun c =>
      Char.ofNat (Crypto.rot13Char c.toNat)))).toList =
      s.toList.map (fun c => Char.ofNat (Crypto.rot13Char c.toNat)) := rfl
  rw [h1, List.map_map]
  have hmap : ∀ l : List Char, (∀ c ∈ l, c.toNat < 128) →
      l.map ((fun c => Char.ofNat (Crypto.rot13Char c.toNat)) ∘
        (fun c => Char.ofNat (Crypto.rot13Char c.toNat))) = l := by
    intro l
    induction l with
    | nil => intro _; rfl
    | cons a t ih =>
      intro hl
      have ha : a.toNat < 128 := hl a (by simp)
      simp only [List.map_cons, Function.comp]
      rw [ih (fun x hx => hl x (by simp [hx]))]
      congr 1
      rw [toNat_ofNat_valid
        (Or.inl (by have := rot13Char_lt_128 a.toNat ha; omega))]
      rw [rot13Char_invol a.toNat ha, Char.ofNat_toNat]
  rw [hmap s.toList h]
  exact mk_toList s

/-- C10 counterexample: the round trip fails on a string that is not
ASCII — Python treats `é` (U+00E9) as alphabetic, the rot13 shift maps it
into `a-z` (here `t`), and applying rot13 again gives `g`, not `é`. -/
theorem C10_counterexample :
    Crypto.decode (Crypto.encode "é" "rot13") "rot13" ≠ "é" := by
  decide

/-- C10 (amended): decoding the result of encoding is the identity for
`base64` and `hex` on every string; for `rot13` (its own inverse under
`decode`) the round trip holds for every ASCII string, but not for
arbitrary strings (see the counterexample). -/
theorem C10_roundtrip_amended (s : String) :
    Crypto.decode (Crypto.encode s "base64") "base64" = s ∧
    Crypto.decode (Crypto.encode s "hex") "hex" = s ∧
    ((∀ c ∈ s.toList, c.toNat < 128) →
      Crypto.decode (Crypto.encode s "rot13") "rot13" = s ∧
      Crypto.rot13 (Crypto.rot13 s) = s) := by
  refine ⟨?_, ?_, fun h => ⟨?_, rot13_rot13_ascii s h⟩⟩
  · exact b64_roundtrip s
  · exact hex_roundtrip s
  · exact rot13_rot13_ascii s h

/-- C10 witness: a concrete ASCII string round-trips through all three
encodings. -/
theorem C10_witness :
    Crypto.decode (Crypto.encode "Ab z" "base64") "base64" = "Ab z" ∧
    Crypto.decode (Crypto.encode "Ab z" "hex") "hex" = "Ab z" ∧
    Crypto.decode (Crypto.encode "Ab z" "rot13") "rot13" = "Ab z" :=
  ⟨(C10_roundtrip_amended "Ab z").1, (C10_roundtrip_amended "Ab z").2.1,
   ((C10_roundtrip_amended "Ab z").2.2 (by decide)).1⟩
